import Mathlib

/-!
Shallow embedding of the pagination-and-aggregation core of the
geomet-catalog scripts (`geomet_export.py`, `geomet_fetch.py`,
`geomet_visualize.py`) together with the field-shaping layer
(`parse_date`, `to_numeric`, and the per-chart data shaping).

The remote service is modelled as a function `resp : Nat → Page α` giving the
response to the i-th issued request; requests are recorded in a `ReqLog` trace
so that statements about the `limit`/`offset` query parameters and about the
number of issued requests can be made.  JSON numbers are modelled as exact
rationals.
-/

namespace Geomet

/-- JSON-like property values as delivered by the service: string, number,
boolean, or null (an absent property is delivered to the Python helpers as
`None`, which this model folds into `null`).  Numbers are exact rationals. -/
inductive JValue where
  | str (s : String)
  | num (q : ℚ)
  | bool (b : Bool)
  | null
deriving DecidableEq

/-- One entry of a page's `links` array; the collectors consult only the
`rel` member (`link.get("rel")`, absent modelled as `none`). -/
structure Link where
  rel : Option String
deriving DecidableEq

/-- One server response: the `features` array (`data.get("features", [])`)
and the `links` array (`data.get("links", [])`). -/
structure Page (α : Type) where
  features : List α
  links : List Link

/-- `any(link.get("rel") == "next" for link in links)`. -/
def hasNextLink (links : List Link) : Bool :=
  links.any (fun l => l.rel == some "next")

/-- Python `v or d` for an optional integer argument: both `None` and `0`
are falsy and give the default. -/
def orDefault (v : Option Nat) (d : Nat) : Nat :=
  match v with
  | none => d
  | some n => if n = 0 then d else n

/-- Log of one issued page request: the `limit` and `offset` query parameters
sent, the number of records collected before the request, and the number of
features the server returned for it. -/
structure ReqLog where
  limit : Nat
  offset : Nat
  before : Nat
  got : Nat
deriving DecidableEq

/-- The paging loop of `geomet_export.fetch_all` (lines 78-101), which is
textually identical in `geomet_visualize.fetch_all` (lines 84-106):

    while len(all_features) < max_items:
        current_limit = min(limit_per_page, max_items - len(all_features))
        data = fetch_json(build_url(..., current_limit, offset, ...))
        features = data.get("features", [])
        if not features: break
        all_features.extend(features); offset += len(features)
        if not any(l.get("rel") == "next" for l in data.get("links", [])): break

The loop is fuel-indexed; `fetch_all_loop_stable` below shows that any fuel
covering `maxItems - acc.length` yields the same result, so the fuelled
function is the loop's semantics.  It returns the untrimmed collected list
together with the trace of issued requests. -/
def fetch_all_loop (resp : Nat → Page α) (maxItems limitPerPage : Nat) :
    Nat → Nat → Nat → List α → List α × List ReqLog
  | 0, _, _, acc => (acc, [])
  | fuel + 1, i, offset, acc =>
    if acc.length < maxItems then
      let currentLimit := min limitPerPage (maxItems - acc.length)
      let page := resp i
      let log : ReqLog := ⟨currentLimit, offset, acc.length, page.features.length⟩
      if page.features.isEmpty then (acc, [log])
      else
        if hasNextLink page.links then
          let r := fetch_all_loop resp maxItems limitPerPage fuel (i + 1)
            (offset + page.features.length) (acc ++ page.features)
          (r.1, log :: r.2)
        else (acc ++ page.features, [log])
    else (acc, [])

/-- The arguments of `geomet_export.py` that `fetch_all` consults. -/
structure ExportArgs where
  limit : Option Nat
  all_pages : Bool
  max_items : Nat

/-- `max_items = args.max_items if args.all_pages else (args.limit or 10)`. -/
def ExportArgs.maxItemsEff (a : ExportArgs) : Nat :=
  if a.all_pages then a.max_items else orDefault a.limit 10

/-- `limit_per_page = min(args.limit or 100, 500)`. -/
def ExportArgs.limitPerPage (a : ExportArgs) : Nat :=
  min (orDefault a.limit 100) 500

/-- `geomet_export.fetch_all` (lines 71-102): runs the paging loop and
returns `all_features[:max_items]` together with the request trace. -/
def export_fetch_all (resp : Nat → Page α) (a : ExportArgs) :
    List α × List ReqLog :=
  let r := fetch_all_loop resp a.maxItemsEff a.limitPerPage a.maxItemsEff 0 0 []
  (r.1.take a.maxItemsEff, r.2)

/-- The arguments of `geomet_visualize.py` that `fetch_all` consults. -/
structure VisualizeArgs where
  limit : Option Nat

/-- `max_items = args.limit or 100`. -/
def VisualizeArgs.maxItemsEff (a : VisualizeArgs) : Nat :=
  orDefault a.limit 100

/-- `limit_per_page = min(args.limit or 100, 500)`. -/
def VisualizeArgs.limitPerPage (a : VisualizeArgs) : Nat :=
  min (orDefault a.limit 100) 500

/-- `geomet_visualize.fetch_all` (lines 77-107). -/
def visualize_fetch_all (resp : Nat → Page α) (a : VisualizeArgs) :
    List α × List ReqLog :=
  let r := fetch_all_loop resp a.maxItemsEff a.limitPerPage a.maxItemsEff 0 0 []
  (r.1.take a.maxItemsEff, r.2)

/-- The paging loop of `geomet_fetch.fetch_all_pages` (lines 134-157).  It
differs from `fetch_all_loop` in one point: the `limit` parameter sent with
every request is `limit_per_page` itself, never reduced by the remaining
headroom `max_items - len(all_features)`. -/
def fetch_all_pages_loop (resp : Nat → Page α) (maxItems limitPerPage : Nat) :
    Nat → Nat → Nat → List α → List α × List ReqLog
  | 0, _, _, acc => (acc, [])
  | fuel + 1, i, offset, acc =>
    if acc.length < maxItems then
      let page := resp i
      let log : ReqLog := ⟨limitPerPage, offset, acc.length, page.features.length⟩
      if page.features.isEmpty then (acc, [log])
      else
        if hasNextLink page.links then
          let r := fetch_all_pages_loop resp maxItems limitPerPage fuel (i + 1)
            (offset + page.features.length) (acc ++ page.features)
          (r.1, log :: r.2)
        else (acc ++ page.features, [log])
    else (acc, [])

/-- The arguments of `geomet_fetch.py` consulted by `fetch_all_pages` and
`main`. -/
structure FetchArgs where
  limit : Option Nat
  offset : Option Nat
  all_pages : Bool
  max_items : Nat

/-- `geomet_fetch.fetch_all_pages` (lines 128-160):
`limit_per_page = min(args.limit or 100, 500)`, `offset = args.offset or 0`,
then the loop, then `return all_features[:max_items]`. -/
def fetch_all_pages (resp : Nat → Page α) (a : FetchArgs) (maxItems : Nat) :
    List α × List ReqLog :=
  let limitPerPage := min (orDefault a.limit 100) 500
  let offset0 := orDefault a.offset 0
  let r := fetch_all_pages_loop resp maxItems limitPerPage maxItems 0 offset0 []
  (r.1.take maxItems, r.2)

/-- `geomet_fetch.main` after argument parsing (lines 188-197): in all-pages
mode it calls `fetch_all_pages`; otherwise it builds one URL, issues exactly
one request, and reads `data.get("features", [])`.  Returns the features and
the number of issued requests. -/
def fetch_main (resp : Nat → Page α) (a : FetchArgs) : List α × Nat :=
  if a.all_pages then
    let r := fetch_all_pages resp a a.max_items
    (r.1, r.2.length)
  else
    ((resp 0).features, 1)

/-- A wall-clock instant as produced by `datetime.strptime`: naive year,
month, day, hour, minute, second (the six formats parse no sub-second or
zone fields). -/
structure Datetime where
  year : Nat
  month : Nat
  day : Nat
  hour : Nat
  minute : Nat
  second : Nat
deriving DecidableEq

/-- Numeric value of a decimal digit character, `none` otherwise. -/
def digit? (c : Char) : Option Nat :=
  if c.isDigit then some (c.toNat - 48) else none

/-- Tokens of the six `strptime` format strings used by
`geomet_visualize.parse_date`: a literal character (matched
case-insensitively, as CPython compiles its format regex with IGNORECASE), a
whitespace run, and the numeric directives `%Y %m %d %H %M %S`. -/
inductive FmtTok where
  | lit (c : Char)
  | ws
  | Y
  | m
  | d
  | H
  | M
  | S
deriving DecidableEq

/-- The field defaults `datetime.strptime` starts from: year 1900, January 1,
midnight. -/
def strptimeDefault : Datetime := ⟨1900, 1, 1, 0, 0, 0⟩

/-- Regex matching of a token list against the input, following CPython's
`_strptime` patterns with their alternation order and backtracking:
`%Y` is exactly four digits; `%m` is `1[0-2]|0[1-9]|[1-9]`; `%d` is
`3[01]|[12]\d|0[1-9]|[1-9]`; `%H` is `2[0-3]|[0-1]\d|\d`; `%M` is
`[0-5]\d|\d`; `%S` is `6[0-1]|[0-5]\d|\d`; a two-digit alternative is
retried as one digit when the remainder of the pattern fails; the whole
input must be consumed. -/
def matchToks : List FmtTok → List Char → Datetime → Option Datetime
  | [], cs, acc => if cs.isEmpty then some acc else none
  | .lit c :: toks, cs, acc =>
    match cs with
    | c' :: rest => if c'.toLower = c.toLower then matchToks toks rest acc else none
    | [] => none
  | .ws :: toks, cs, acc =>
    match cs with
    | c' :: rest =>
      if c'.isWhitespace then matchToks toks (rest.dropWhile Char.isWhitespace) acc
      else none
    | [] => none
  | .Y :: toks, cs, acc =>
    match cs with
    | c1 :: c2 :: c3 :: c4 :: rest =>
      match digit? c1, digit? c2, digit? c3, digit? c4 with
      | some a, some b, some c, some e =>
        matchToks toks rest {acc with year := ((a * 10 + b) * 10 + c) * 10 + e}
      | _, _, _, _ => none
    | _ => none
  | .m :: toks, cs, acc =>
    let two : Option Datetime :=
      match cs with
      | c1 :: c2 :: rest =>
        match digit? c1, digit? c2 with
        | some a, some b =>
          if (a = 1 ∧ b ≤ 2) ∨ (a = 0 ∧ 1 ≤ b) then
            matchToks toks rest {acc with month := a * 10 + b}
          else none
        | _, _ => none
      | _ => none
    match two with
    | some t => some t
    | none =>
      match cs with
      | c1 :: rest =>
        match digit? c1 with
        | some a =>
          if 1 ≤ a then matchToks toks rest {acc with month := a} else none
        | none => none
      | [] => none
  | .d :: toks, cs, acc =>
    let two : Option Datetime :=
      match cs with
      | c1 :: c2 :: rest =>
        match digit? c1, digit? c2 with
        | some a, some b =>
          if (a = 3 ∧ b ≤ 1) ∨ a = 1 ∨ a = 2 ∨ (a = 0 ∧ 1 ≤ b) then
            matchToks toks rest {acc with day := a * 10 + b}
          else none
        | _, _ => none
      | _ => none
    match two with
    | some t => some t
    | none =>
      match cs with
      | c1 :: rest =>
        match digit? c1 with
        | some a =>
          if 1 ≤ a then matchToks toks rest {acc with day := a} else none
        | none => none
      | [] => none
  | .H :: toks, cs, acc =>
    let two : Option Datetime :=
      match cs with
      | c1 :: c2 :: rest =>
        match digit? c1, digit? c2 with
        | some a, some b =>
          if (a = 2 ∧ b ≤ 3) ∨ a ≤ 1 then
            matchToks toks rest {acc with hour := a * 10 + b}
          else none
        | _, _ => none
      | _ => none
    match two with
    | some t => some t
    | none =>
      match cs with
      | c1 :: rest =>
        match digit? c1 with
        | some a => matchToks toks rest {acc with hour := a}
        | none => none
      | [] => none
  | .M :: toks, cs, acc =>
    let two : Option Datetime :=
      match cs with
      | c1 :: c2 :: rest =>
        match digit? c1, digit? c2 with
        | some a, some b =>
          if a ≤ 5 then matchToks toks rest {acc with minute := a * 10 + b}
          else none
        | _, _ => none
      | _ => none
    match two with
    | some t => some t
    | none =>
      match cs with
      | c1 :: rest =>
        match digit? c1 with
        | some a => matchToks toks rest {acc with minute := a}
        | none => none
      | [] => none
  | .S :: toks, cs, acc =>
    let two : Option Datetime :=
      match cs with
      | c1 :: c2 :: rest =>
        match digit? c1, digit? c2 with
        | some a, some b =>
          if (a = 6 ∧ b ≤ 1) ∨ a ≤ 5 then
            matchToks toks rest {acc with second := a * 10 + b}
          else none
        | _, _ => none
      | _ => none
    match two with
    | some t => some t
    | none =>
      match cs with
      | c1 :: rest =>
        match digit? c1 with
        | some a => matchToks toks rest {acc with second := a}
        | none => none
      | [] => none

/-- Gregorian leap year rule, as implemented by `datetime`. -/
def leapYear (y : Nat) : Bool :=
  y % 4 = 0 && (y % 100 ≠ 0 || y % 400 = 0)

/-- Days in a month, as validated by the `datetime` constructor. -/
def daysInMonth (y mo : Nat) : Nat :=
  if mo = 2 then (if leapYear y then 29 else 28)
  else if mo = 4 ∨ mo = 6 ∨ mo = 9 ∨ mo = 11 then 30
  else 31

/-- The `datetime(...)` constructor's range validation: the regex already
bounds month/hour/minute, but the constructor additionally rejects year 0,
days beyond the month's length, and the leap seconds 60/61 that the `%S`
pattern admits. -/
def validDatetime (t : Datetime) : Bool :=
  1 ≤ t.year && t.year ≤ 9999 && 1 ≤ t.month && t.month ≤ 12 &&
    1 ≤ t.day && t.day ≤ daysInMonth t.year t.month &&
    t.hour ≤ 23 && t.minute ≤ 59 && t.second ≤ 59

/-- `datetime.strptime(s, fmt)` for the six formats of `parse_date`,
returning `none` where CPython raises `ValueError` (which `parse_date`
catches). -/
def strptime (fmt : List FmtTok) (s : String) : Option Datetime :=
  match matchToks fmt s.toList strptimeDefault with
  | some t => if validDatetime t then some t else none
  | none => none

/-- Format `"%Y-%m-%dT%H:%M:%SZ"`. -/
def fmtISOZ : List FmtTok :=
  [.Y, .lit '-', .m, .lit '-', .d, .lit 'T', .H, .lit ':', .M, .lit ':', .S,
    .lit 'Z']

/-- Format `"%Y-%m-%dT%H:%M:%S"`. -/
def fmtISO : List FmtTok :=
  [.Y, .lit '-', .m, .lit '-', .d, .lit 'T', .H, .lit ':', .M, .lit ':', .S]

/-- Format `"%Y-%m-%d %H:%M:%S"` (the literal space matches a whitespace
run, as `_strptime` replaces whitespace in the format by `\s+`). -/
def fmtSpaceSep : List FmtTok :=
  [.Y, .lit '-', .m, .lit '-', .d, .ws, .H, .lit ':', .M, .lit ':', .S]

/-- Format `"%Y-%m-%d"`. -/
def fmtDateOnly : List FmtTok := [.Y, .lit '-', .m, .lit '-', .d]

/-- Format `"%Y/%m/%d"`. -/
def fmtSlashDate : List FmtTok := [.Y, .lit '/', .m, .lit '/', .d]

/-- Format `"%Y%m%d"`. -/
def fmtCompact : List FmtTok := [.Y, .m, .d]

/-- The ordered format list of `geomet_visualize.parse_date` (lines
124-131). -/
def dateFormats : List (List FmtTok) :=
  [fmtISOZ, fmtISO, fmtSpaceSep, fmtDateOnly, fmtSlashDate, fmtCompact]

/-- The `for fmt in formats: try ... except ValueError: continue` loop:
first successful parse wins. -/
def firstParse : List (List FmtTok) → String → Option Datetime
  | [], _ => none
  | f :: fs, s =>
    match strptime f s with
    | some t => some t
    | none => firstParse fs s

/-- `geomet_visualize.parse_date` (lines 121-138): only strings are tried
against the ordered format list; any non-string input and any string
matching no format give `None`, and no error escapes. -/
def parse_date (value : JValue) : Option Datetime :=
  match value with
  | .str s => firstParse dateFormats s
  | _ => none

/-- Exact rational value of a digit run, most significant digit first. -/
def digitsVal (cs : List Char) : Nat :=
  cs.foldl (fun n c => n * 10 + (c.toNat - 48)) 0

/-- Models CPython `float(s)` on ordinary decimal literals: optional
surrounding whitespace, optional sign, integer digits, optional fractional
digits, optional decimal exponent; anything else is a `ValueError`, i.e.
`none`.  The value is the exact rational the literal denotes; IEEE-754
rounding, `inf`/`nan` spellings and underscore digit separators are outside
this rational model. -/
def parseFloat? (s : String) : Option ℚ :=
  let cs0 := (((s.toList.dropWhile Char.isWhitespace).reverse.dropWhile
    Char.isWhitespace).reverse)
  let sgncs : ℚ × List Char :=
    match cs0 with
    | '+' :: rest => (1, rest)
    | '-' :: rest => (-1, rest)
    | _ => (1, cs0)
  let intPart := sgncs.2.takeWhile Char.isDigit
  let cs1 := sgncs.2.dropWhile Char.isDigit
  let fraccs : List Char × List Char :=
    match cs1 with
    | '.' :: rest => (rest.takeWhile Char.isDigit, rest.dropWhile Char.isDigit)
    | _ => ([], cs1)
  let hasDigits : Bool :=
    !intPart.isEmpty ||
      (match cs1 with
       | '.' :: _ => !fraccs.1.isEmpty
       | _ => false)
  let expcs : Option ℤ × List Char :=
    match fraccs.2 with
    | 'e' :: rest | 'E' :: rest =>
      let esgn : ℤ × List Char :=
        match rest with
        | '+' :: r2 => (1, r2)
        | '-' :: r2 => (-1, r2)
        | _ => (1, rest)
      let ed := esgn.2.takeWhile Char.isDigit
      if ed.isEmpty then (none, rest)
      else (some (esgn.1 * digitsVal ed), esgn.2.dropWhile Char.isDigit)
    | other => (some 0, other)
  match expcs.1 with
  | none => none
  | some ex =>
    if hasDigits && expcs.2.isEmpty then
      some (sgncs.1 *
        ((digitsVal intPart : ℚ) +
          (digitsVal fraccs.1 : ℚ) / 10 ^ fraccs.1.length) * 10 ^ ex)
    else none

/-- `geomet_visualize.to_numeric` (lines 141-148): `None` stays `None`;
otherwise `float(value)` is attempted, `ValueError`/`TypeError` give
`None`.  `float` of a number is itself and `float` of a Python bool is
`1.0`/`0.0`. -/
def to_numeric (value : JValue) : Option ℚ :=
  match value with
  | .null => none
  | .num q => some q
  | .bool b => some (if b then 1 else 0)
  | .str s => parseFloat? s

/-- A GeoJSON geometry: its `type` tag and (for the `Point` case consulted
by the scripts) the flat coordinate array. -/
structure Geometry where
  geomType : String
  coordinates : List ℚ
deriving DecidableEq

/-- One GeoJSON feature as consumed by the shaping code: identifier,
property mapping, optional geometry. -/
structure Feature where
  id : Option String
  properties : List (String × JValue)
  geometry : Option Geometry
deriving DecidableEq

/-- `feature.get("properties", {}).get(field)`: an absent key is delivered
as Python `None`, folded into `JValue.null`. -/
def getProp (f : Feature) (k : String) : JValue :=
  (f.properties.lookup k).getD .null

/-- Chronological key of a datetime: a mixed-radix encoding that is
order-isomorphic (and injective) on validated datetimes, where month ≤ 12 <
13, day ≤ 31 < 32, hour < 24, minute < 60 and second < 60; Python compares
datetimes chronologically, i.e. lexicographically by field. -/
def dtKey (t : Datetime) : Nat :=
  ((((t.year * 13 + t.month) * 32 + t.day) * 24 + t.hour) * 60 + t.minute)
    * 60 + t.second

/-- Python's tuple comparison on `(datetime, float)` pairs, as used by
`sorted(zip(dates, values))`: first chronologically by datetime, ties by
value. -/
def pairLe (p q : Datetime × ℚ) : Prop :=
  dtKey p.1 < dtKey q.1 ∨ (dtKey p.1 = dtKey q.1 ∧ p.2 ≤ q.2)

instance : DecidableRel pairLe := fun p q => by
  unfold pairLe; exact inferInstance

instance : IsTotal (Datetime × ℚ) pairLe :=
  ⟨fun a b => by
    unfold pairLe
    rcases lt_trichotomy (dtKey a.1) (dtKey b.1) with h | h | h
    · exact Or.inl (Or.inl h)
    · rcases le_total a.2 b.2 with hv | hv
      · exact Or.inl (Or.inr ⟨h, hv⟩)
      · exact Or.inr (Or.inr ⟨h.symm, hv⟩)
    · exact Or.inr (Or.inl h)⟩

instance : IsTrans (Datetime × ℚ) pairLe :=
  ⟨fun a b c hab hbc => by
    unfold pairLe at hab hbc ⊢
    rcases hab with h1 | ⟨h1, h1'⟩ <;> rcases hbc with h2 | ⟨h2, h2'⟩
    · exact Or.inl (by omega)
    · exact Or.inl (by omega)
    · exact Or.inl (by omega)
    · exact Or.inr ⟨by omega, h1'.trans h2'⟩⟩

/-- The filtering loop of `plot_timeseries` (lines 171-179): a record enters
`dates`/`values` only when its x parses as a date and its y coerces to a
number, in feature order. -/
def timeseriesRaw (features : List Feature) (xf yf : String) :
    List (Datetime × ℚ) :=
  match features with
  | [] => []
  | f :: fs =>
    match parse_date (getProp f xf), to_numeric (getProp f yf) with
    | some dt, some v => (dt, v) :: timeseriesRaw fs xf yf
    | _, _ => timeseriesRaw fs xf yf

/-- `paired = sorted(zip(dates, values))` then unzip (lines 185-187):
the ungrouped series handed to `ax.plot`. -/
def plot_timeseries_pairs (features : List Feature) (xf yf : String) :
    List (Datetime × ℚ) :=
  List.insertionSort pairLe (timeseriesRaw features xf yf)

/-- Python `str()` of a property value as used for group keys.  Numbers are
rendered via the rational's canonical string; the partition induced on
records is the same as Python's since both renderings are injective. -/
def pyStr : JValue → String
  | .str s => s
  | .bool b => if b then "True" else "False"
  | .null => "None"
  | .num q => toString q

/-- `str(props.get(args.group_by, "unknown"))`. -/
def groupKey (f : Feature) (gf : String) : String :=
  match f.properties.lookup gf with
  | some v => pyStr v
  | none => "unknown"

/-- The per-group filtering of `plot_timeseries`'s grouped branch (lines
192-201), restricted to one group key `g`: records in feature order whose
group key is `g` and whose x/y both convert. -/
def groupRaw (features : List Feature) (xf yf gf g : String) :
    List (Datetime × ℚ) :=
  match features with
  | [] => []
  | f :: fs =>
    match parse_date (getProp f xf), to_numeric (getProp f yf) with
    | some dt, some v =>
      if groupKey f gf = g then (dt, v) :: groupRaw fs xf yf gf g
      else groupRaw fs xf yf gf g
    | _, _ => groupRaw fs xf yf gf g

/-- The sorted per-group series `sorted(zip(gd, gv))` handed to `ax.plot`
for group `g` (lines 202-205). -/
def plot_timeseries_group (features : List Feature) (xf yf gf g : String) :
    List (Datetime × ℚ) :=
  List.insertionSort pairLe (groupRaw features xf yf gf g)

/-- The point-building loop of `plot_scatter` (lines 286-298): both fields
must coerce numerically; retained points keep feature order, with no
sorting. -/
def plot_scatter_points (features : List Feature) (xf yf : String) :
    List (ℚ × ℚ) :=
  match features with
  | [] => []
  | f :: fs =>
    match to_numeric (getProp f xf), to_numeric (getProp f yf) with
    | some x, some y => (x, y) :: plot_scatter_points fs xf yf
    | _, _ => plot_scatter_points fs xf yf

/-- `extract_geometry_coords`-style Point extraction shared by the map loop:
`geometry` must be present with type `"Point"` and at least two
coordinates. -/
def pointCoords (f : Feature) : Option (ℚ × ℚ) :=
  match f.geometry with
  | none => none
  | some g =>
    if g.geomType = "Point" then
      match g.coordinates with
      | c0 :: c1 :: _ => some (c0, c1)
      | _ => none
    else none

/-- The data-building loop of `plot_map` (lines 334-349): skip features
without Point geometry or with fewer than two coordinates; for retained
features append lon/lat, and if a (truthy) `y_field` was given also append
`to_numeric(props.get(y_field))`, substituting `0` when the coercion
returns `None`. -/
def plot_map_data (features : List Feature) (y_field : Option String) :
    List ℚ × List ℚ × List ℚ :=
  match features with
  | [] => ([], [], [])
  | f :: fs =>
    let rest := plot_map_data fs y_field
    match pointCoords f with
    | none => rest
    | some (c0, c1) =>
      match y_field with
      | some yf =>
        if yf.isEmpty then (c0 :: rest.1, c1 :: rest.2.1, rest.2.2)
        else (c0 :: rest.1, c1 :: rest.2.1,
          ((to_numeric (getProp f yf)).getD 0) :: rest.2.2)
      | none => (c0 :: rest.1, c1 :: rest.2.1, rest.2.2)

/-- A record is dropped by the timeseries shaping when its x-value does not
parse as a date or its y-value does not coerce to a number. -/
def droppedTS (xf yf : String) (f : Feature) : Bool :=
  (parse_date (getProp f xf)).isNone || (to_numeric (getProp f yf)).isNone

/-- A record is dropped by the scatter shaping when either field fails
numeric coercion. -/
def droppedScatter (xf yf : String) (f : Feature) : Bool :=
  (to_numeric (getProp f xf)).isNone || (to_numeric (getProp f yf)).isNone

/-- Two-digit zero-padded decimal rendering. -/
def pad2 (n : Nat) : List Char :=
  [Nat.digitChar (n / 10), Nat.digitChar (n % 10)]

/-- Four-digit zero-padded decimal rendering. -/
def pad4 (n : Nat) : List Char :=
  [Nat.digitChar (n / 1000), Nat.digitChar (n / 100 % 10),
    Nat.digitChar (n / 10 % 10), Nat.digitChar (n % 10)]

/-- The canonical `YYYY-MM-DDTHH:MM:SSZ` rendering of a wall-clock
instant. -/
def canonicalZ (y mo dd h mi s : Nat) : String :=
  ⟨pad4 y ++ '-' :: (pad2 mo ++ '-' :: (pad2 dd ++ 'T' ::
    (pad2 h ++ ':' :: (pad2 mi ++ ':' :: (pad2 s ++ ['Z'])))))⟩

/-- Two records whose x-values arrive in descending order, for the C7
scatter counterexample. -/
def c7Features : List Feature :=
  [⟨none, [("X", .num 2), ("Y", .num 1)], none⟩,
   ⟨none, [("X", .num 1), ("Y", .num 1)], none⟩]

/-- One well-formed record for the C7 witness. -/
def c7WFeature : Feature :=
  ⟨none, [("D", .str "2023-05-17"), ("V", .num 3)], none⟩

/-- A Point-geometry record with no `TEMP` property, for the C8
counterexample. -/
def c8F : Feature := ⟨none, [("STATION", .str "A")], some ⟨"Point", [1, 2]⟩⟩

/-- A Point-geometry record with no `TEMP` property, for the C8 witness. -/
def c8W : Feature := ⟨none, [("STATION", .str "B")], some ⟨"Point", [3, 4]⟩⟩

/-- A record with a parseable date and a boolean y-value, for the C10
witness. -/
def c10Feature : Feature :=
  ⟨none, [("D", .str "2023-05-17"), ("V", .bool true)], none⟩

/-- Concrete server for the C1 witness: every page holds two records and a
`next` link. -/
def c1Resp : Nat → Page Nat :=
  fun i => if i = 0 then ⟨[1, 2], [⟨some "next"⟩]⟩ else ⟨[3, 4], [⟨some "next"⟩]⟩

/-- Concrete server for C2: the first page holds five records and a `next`
link, later pages are empty. -/
def c2Resp : Nat → Page Nat :=
  fun i => if i = 0 then ⟨[1, 2, 3, 4, 5], [⟨some "next"⟩]⟩ else ⟨[], []⟩

/-- Export arguments for the C2 counterexample: `--limit 10` and no
`--all-pages` flag. -/
def c2Ea : ExportArgs := ⟨some 10, false, 1000⟩

/-- Fetch arguments for the C2 witness: single-page mode. -/
def c2Fa : FetchArgs := ⟨some 10, some 0, false, 500⟩

/-- Concrete server for the C3 counterexample: an empty first page. -/
def c3Resp : Nat → Page Nat := fun _ => ⟨[], []⟩

/-- Fetch arguments for the C3 counterexample: `--limit 10 --all-pages
--max-items 5`. -/
def c3Fa : FetchArgs := ⟨some 10, some 0, true, 5⟩

/-- Concrete server for the C3 witness. -/
def c3RespW : Nat → Page Nat := fun _ => ⟨[], []⟩

/-- Export arguments for the C3 witness: `--limit 7`, no `--all-pages`. -/
def c3Ea : ExportArgs := ⟨some 7, false, 1000⟩

/-- Concrete server for the C4 witness: page 0 has one record and a `next`
link, page 1 is empty but still carries a `next` link. -/
def c4Resp : Nat → Page Nat :=
  fun i => if i = 0 then ⟨[9], [⟨some "next"⟩]⟩ else ⟨[], [⟨some "next"⟩]⟩

/-- Concrete server for the C5 witness: page 0 has two records and a `next`
link, page 1 is empty. -/
def c5Resp : Nat → Page Nat :=
  fun i => if i = 0 then ⟨[1, 2], [⟨some "next"⟩]⟩ else ⟨[], []⟩

/-- Export arguments for the C5 witness: `--limit 5`, no `--all-pages`. -/
def c5Ea : ExportArgs := ⟨some 5, false, 1000⟩

/-- Fetch arguments for the C5 witness: `--limit 5 --all-pages`. -/
def c5Fa : FetchArgs := ⟨some 5, some 0, true, 5⟩

/-- Concrete server for the C6 witness: every page has one record and a
`next` link, so only the cap stops the loop. -/
def c6Resp : Nat → Page Nat := fun _ => ⟨[7], [⟨some "next"⟩]⟩

/-- Export arguments for the C6 witness. -/
def c6Ea : ExportArgs := ⟨some 1, true, 3⟩

/-- Loop step: cap already satisfied, no request issued. -/
theorem fetch_all_loop_succ_stop {resp : Nat → Page α} {M L n i offset : Nat}
    {acc : List α} (h1 : ¬ acc.length < M) :
    fetch_all_loop resp M L (n + 1) i offset acc = (acc, []) := by
  simp [fetch_all_loop, h1]

/-- Loop step: one request issued, empty `features`, loop breaks. -/
theorem fetch_all_loop_succ_empty {resp : Nat → Page α} {M L n i offset : Nat}
    {acc : List α} (h1 : acc.length < M) (h2 : (resp i).features.isEmpty) :
    fetch_all_loop resp M L (n + 1) i offset acc =
      (acc, [⟨min L (M - acc.length), offset, acc.length,
        (resp i).features.length⟩]) := by
  simp [fetch_all_loop, h1, h2]

/-- Loop step: one request issued, nonempty page without a `next` link. -/
theorem fetch_all_loop_succ_last {resp : Nat → Page α} {M L n i offset : Nat}
    {acc : List α} (h1 : acc.length < M) (h2 : ¬ (resp i).features.isEmpty)
    (h3 : ¬ hasNextLink (resp i).links) :
    fetch_all_loop resp M L (n + 1) i offset acc =
      (acc ++ (resp i).features, [⟨min L (M - acc.length), offset, acc.length,
        (resp i).features.length⟩]) := by
  simp [fetch_all_loop, h1, h2, h3]

/-- Loop step: one request issued, nonempty page with a `next` link. -/
theorem fetch_all_loop_succ_cont {resp : Nat → Page α} {M L n i offset : Nat}
    {acc : List α} (h1 : acc.length < M) (h2 : ¬ (resp i).features.isEmpty)
    (h3 : hasNextLink (resp i).links) :
    fetch_all_loop resp M L (n + 1) i offset acc =
      ((fetch_all_loop resp M L n (i + 1) (offset + (resp i).features.length)
          (acc ++ (resp i).features)).1,
        ⟨min L (M - acc.length), offset, acc.length, (resp i).features.length⟩ ::
        (fetch_all_loop resp M L n (i + 1) (offset + (resp i).features.length)
          (acc ++ (resp i).features)).2) := by
  simp [fetch_all_loop, h1, h2, h3]

/-- The untrimmed collected list is the initial accumulator plus exactly the
features delivered over the issued requests. -/
theorem fetch_all_loop_fst_length (resp : Nat → Page α) (M L : Nat) :
    ∀ (fuel i offset : Nat) (acc : List α),
      (fetch_all_loop resp M L fuel i offset acc).1.length =
        acc.length +
          ((fetch_all_loop resp M L fuel i offset acc).2.map ReqLog.got).sum := by
  intro fuel
  induction fuel with
  | zero => intro i offset acc; simp [fetch_all_loop]
  | succ n ih =>
    intro i offset acc
    by_cases h1 : acc.length < M
    · by_cases h2 : (resp i).features.isEmpty
      · have h2l : (resp i).features.length = 0 := by
          rw [List.length_eq_zero]; exact List.isEmpty_iff.mp h2
        rw [fetch_all_loop_succ_empty h1 h2]
        simp [h2l]
      · by_cases h3 : hasNextLink (resp i).links
        · rw [fetch_all_loop_succ_cont h1 h2 h3]
          simp only [List.map_cons, List.sum_cons]
          rw [ih]
          simp [List.length_append]
          omega
        · rw [fetch_all_loop_succ_last h1 h2 h3]
          simp [List.length_append]
    · rw [fetch_all_loop_succ_stop h1]; simp

/-- Characterization of every entry of the request trace of the shared
export/visualize paging loop: its `limit` is `min limitPerPage (maxItems -
collectedSoFar)`, its `offset` advances by exactly the number of features the
server returned on each earlier request, its `before` field is the number of
records collected before it, and its `got` field records the server's
response length for it. -/
theorem fetch_all_loop_getElem (resp : Nat → Page α) (M L : Nat) :
    ∀ (fuel i offset : Nat) (acc : List α) (p : Nat),
      p < (fetch_all_loop resp M L fuel i offset acc).2.length →
      (fetch_all_loop resp M L fuel i offset acc).2[p]? =
        some ⟨min L (M - (acc.length + ∑ j ∈ Finset.range p, (resp (i + j)).features.length)),
         offset + ∑ j ∈ Finset.range p, (resp (i + j)).features.length,
         acc.length + ∑ j ∈ Finset.range p, (resp (i + j)).features.length,
         (resp (i + p)).features.length⟩ := by
  intro fuel
  induction fuel with
  | zero => intro i offset acc p hp; simp [fetch_all_loop] at hp
  | succ n ih =>
    intro i offset acc p hp
    have hshift : ∀ (q : Nat),
        (∑ j ∈ Finset.range (q + 1), (resp (i + j)).features.length) =
          (resp i).features.length +
            ∑ j ∈ Finset.range q, (resp (i + 1 + j)).features.length := by
      intro q
      rw [Finset.sum_range_succ']
      have hc : (∑ j ∈ Finset.range q, (resp (i + (j + 1))).features.length) =
          ∑ j ∈ Finset.range q, (resp (i + 1 + j)).features.length :=
        Finset.sum_congr rfl
          (fun j _ => by rw [show i + (j + 1) = i + 1 + j by omega])
      have h0 : (resp (i + 0)).features.length = (resp i).features.length := rfl
      rw [hc, h0]
      omega
    by_cases h1 : acc.length < M
    · by_cases h2 : (resp i).features.isEmpty
      · rw [fetch_all_loop_succ_empty h1 h2] at hp ⊢
        simp only [List.length_singleton] at hp
        have hp0 : p = 0 := by omega
        subst hp0
        simp
      · by_cases h3 : hasNextLink (resp i).links
        · rw [fetch_all_loop_succ_cont h1 h2 h3] at hp ⊢
          cases p with
          | zero => simp
          | succ q =>
            simp only [List.length_cons, Nat.add_lt_add_iff_right] at hp
            rw [List.getElem?_cons_succ]
            rw [ih (i + 1) (offset + (resp i).features.length)
              (acc ++ (resp i).features) q hp]
            have hidx : i + 1 + q = i + (q + 1) := by omega
            simp only [List.length_append, hshift, hidx]
            refine congrArg some ?_
            simp only [ReqLog.mk.injEq]
            refine ⟨by congr 1; omega, by omega, by omega, trivial⟩
        · rw [fetch_all_loop_succ_last h1 h2 h3] at hp ⊢
          simp only [List.length_singleton] at hp
          have hp0 : p = 0 := by omega
          subst hp0
          simp
    · rw [fetch_all_loop_succ_stop h1] at hp
      simp at hp

/-- Every request is issued only while the collected length is still below the
cap. -/
theorem fetch_all_loop_before_lt (resp : Nat → Page α) (M L : Nat) :
    ∀ (fuel i offset : Nat) (acc : List α),
      ∀ lg ∈ (fetch_all_loop resp M L fuel i offset acc).2, lg.before < M := by
  intro fuel
  induction fuel with
  | zero => intro i offset acc lg h; simp [fetch_all_loop] at h
  | succ n ih =>
    intro i offset acc lg h
    by_cases h1 : acc.length < M
    · by_cases h2 : (resp i).features.isEmpty
      · rw [fetch_all_loop_succ_empty h1 h2] at h
        simp at h
        subst h; exact h1
      · by_cases h3 : hasNextLink (resp i).links
        · rw [fetch_all_loop_succ_cont h1 h2 h3] at h
          simp only [List.mem_cons] at h
          rcases h with h | h
          · subst h; exact h1
          · exact ih _ _ _ lg h
        · rw [fetch_all_loop_succ_last h1 h2 h3] at h
          simp at h
          subst h; exact h1
    · rw [fetch_all_loop_succ_stop h1] at h
      simp at h

/-- Each completed iteration strictly grows the accumulator, so at most
`maxItems - acc.length` requests are ever issued. -/
theorem fetch_all_loop_trace_le (resp : Nat → Page α) (M L : Nat) :
    ∀ (fuel i offset : Nat) (acc : List α),
      (fetch_all_loop resp M L fuel i offset acc).2.length ≤ M - acc.length := by
  intro fuel
  induction fuel with
  | zero => intro i offset acc; simp [fetch_all_loop]
  | succ n ih =>
    intro i offset acc
    by_cases h1 : acc.length < M
    · by_cases h2 : (resp i).features.isEmpty
      · rw [fetch_all_loop_succ_empty h1 h2]; simp; omega
      · have hlen : 0 < (resp i).features.length := by
          rcases List.isEmpty_iff.not.mp h2 with h
          have := List.length_pos.mpr (by simpa [List.isEmpty_iff] using h2)
          exact this
        by_cases h3 : hasNextLink (resp i).links
        · rw [fetch_all_loop_succ_cont h1 h2 h3]
          simp only [List.length_cons]
          have := ih (i + 1) (offset + (resp i).features.length)
            (acc ++ (resp i).features)
          simp only [List.length_append] at this
          omega
        · rw [fetch_all_loop_succ_last h1 h2 h3]; simp; omega
    · rw [fetch_all_loop_succ_stop h1]; simp

/-- Fuel irrelevance: any two fuels covering the remaining headroom give the
same run, so the fuelled loop is the semantics of the unbounded `while`
loop, which therefore terminates within `maxItems - acc.length` requests. -/
theorem fetch_all_loop_stable (resp : Nat → Page α) (M L : Nat) :
    ∀ (f1 f2 i offset : Nat) (acc : List α),
      M ≤ acc.length + f1 → M ≤ acc.length + f2 →
      fetch_all_loop resp M L f1 i offset acc =
        fetch_all_loop resp M L f2 i offset acc := by
  intro f1
  induction f1 with
  | zero =>
    intro f2 i offset acc hf1 hf2
    have h1 : ¬ acc.length < M := by omega
    cases f2 with
    | zero => rfl
    | succ m => rw [fetch_all_loop_succ_stop h1]; simp [fetch_all_loop]
  | succ n ih =>
    intro f2 i offset acc hf1 hf2
    by_cases h1 : acc.length < M
    · have hf2pos : 0 < f2 := by omega
      obtain ⟨m, rfl⟩ : ∃ m, f2 = m + 1 := ⟨f2 - 1, by omega⟩
      by_cases h2 : (resp i).features.isEmpty
      · rw [fetch_all_loop_succ_empty h1 h2, fetch_all_loop_succ_empty h1 h2]
      · have hlen : 0 < (resp i).features.length :=
          List.length_pos.mpr (by simpa [List.isEmpty_iff] using h2)
        by_cases h3 : hasNextLink (resp i).links
        · rw [fetch_all_loop_succ_cont h1 h2 h3, fetch_all_loop_succ_cont h1 h2 h3]
          rw [ih m (i + 1) (offset + (resp i).features.length)
            (acc ++ (resp i).features) (by simp [List.length_append]; omega)
            (by simp [List.length_append]; omega)]
        · rw [fetch_all_loop_succ_last h1 h2 h3, fetch_all_loop_succ_last h1 h2 h3]
    · cases f2 with
      | zero => rw [fetch_all_loop_succ_stop h1]; rfl
      | succ m => rw [fetch_all_loop_succ_stop h1, fetch_all_loop_succ_stop h1]

/-- An empty `features` array on the response to request `k` means no request
beyond index `k` is ever issued: the loop breaks before looking at the
`links`. -/
theorem fetch_all_loop_empty_halts (resp : Nat → Page α) (M L : Nat)
    (k : Nat) (hk : (resp k).features.isEmpty) :
    ∀ (fuel i offset : Nat) (acc : List α), i ≤ k →
      (fetch_all_loop resp M L fuel i offset acc).2.length ≤ k + 1 - i := by
  intro fuel
  induction fuel with
  | zero => intro i offset acc hik; simp [fetch_all_loop]
  | succ n ih =>
    intro i offset acc hik
    by_cases h1 : acc.length < M
    · by_cases h2 : (resp i).features.isEmpty
      · rw [fetch_all_loop_succ_empty h1 h2]; simp; omega
      · have hik2 : i < k := by
          rcases Nat.lt_or_ge i k with h | h
          · exact h
          · exfalso; have : i = k := by omega
            subst this; exact h2 hk
        by_cases h3 : hasNextLink (resp i).links
        · rw [fetch_all_loop_succ_cont h1 h2 h3]
          simp only [List.length_cons]
          have := ih (i + 1) (offset + (resp i).features.length)
            (acc ++ (resp i).features) (by omega)
          omega
        · rw [fetch_all_loop_succ_last h1 h2 h3]; simp; omega
    · rw [fetch_all_loop_succ_stop h1]; simp

/-- `fetch_all_pages_loop` has the same control flow and collected output as
`fetch_all_loop`; only the `limit` recorded with each request differs, being
constantly `limit_per_page`. -/
theorem fetch_all_pages_loop_eq (resp : Nat → Page α) (M L : Nat) :
    ∀ (fuel i offset : Nat) (acc : List α),
      fetch_all_pages_loop resp M L fuel i offset acc =
        ((fetch_all_loop resp M L fuel i offset acc).1,
         (fetch_all_loop resp M L fuel i offset acc).2.map
           (fun lg => ⟨L, lg.offset, lg.before, lg.got⟩)) := by
  intro fuel
  induction fuel with
  | zero => intro i offset acc; simp [fetch_all_loop, fetch_all_pages_loop]
  | succ n ih =>
    intro i offset acc
    by_cases h1 : acc.length < M
    · by_cases h2 : (resp i).features.isEmpty
      · rw [fetch_all_loop_succ_empty h1 h2]
        simp only [fetch_all_pages_loop, if_pos h1, h2, if_true, List.map_cons,
          List.map_nil]
      · by_cases h3 : hasNextLink (resp i).links
        · rw [fetch_all_loop_succ_cont h1 h2 h3]
          simp only [fetch_all_pages_loop, if_pos h1, h2, Bool.false_eq_true,
            if_false, h3, if_true, List.map_cons]
          rw [ih]
        · rw [fetch_all_loop_succ_last h1 h2 h3]
          simp only [fetch_all_pages_loop, if_pos h1, h2, Bool.false_eq_true,
            if_false, h3, if_false, List.map_cons, List.map_nil]
    · rw [fetch_all_loop_succ_stop h1]
      simp only [fetch_all_pages_loop, if_neg h1, List.map_nil]

/-- Every trace entry of the export/visualize loop sends
`limit = min limitPerPage (maxItems - collectedBefore)`. -/
theorem fetch_all_loop_limit_eq (resp : Nat → Page α) (M L : Nat) :
    ∀ (fuel i offset : Nat) (acc : List α),
      ∀ lg ∈ (fetch_all_loop resp M L fuel i offset acc).2,
        lg.limit = min L (M - lg.before) := by
  intro fuel
  induction fuel with
  | zero => intro i offset acc lg h; simp [fetch_all_loop] at h
  | succ n ih =>
    intro i offset acc lg h
    by_cases h1 : acc.length < M
    · by_cases h2 : (resp i).features.isEmpty
      · rw [fetch_all_loop_succ_empty h1 h2] at h
        simp at h
        subst h; rfl
      · by_cases h3 : hasNextLink (resp i).links
        · rw [fetch_all_loop_succ_cont h1 h2 h3] at h
          simp only [List.mem_cons] at h
          rcases h with h | h
          · subst h; rfl
          · exact ih _ _ _ lg h
        · rw [fetch_all_loop_succ_last h1 h2 h3] at h
          simp at h
          subst h; rfl
    · rw [fetch_all_loop_succ_stop h1] at h
      simp at h

/-- Cap bound for a trimmed loop result: length at most the cap, with
equality only when the server delivered at least that many records over the
issued requests. -/
theorem take_cap_core (resp : Nat → Page α) (M L i off : Nat) :
    ((fetch_all_loop resp M L M i off []).1.take M).length ≤ M ∧
    (((fetch_all_loop resp M L M i off []).1.take M).length = M →
      M ≤ ((fetch_all_loop resp M L M i off []).2.map ReqLog.got).sum) := by
  have hf := fetch_all_loop_fst_length resp M L M i off []
  have ht : ((fetch_all_loop resp M L M i off []).1.take M).length =
      min M (fetch_all_loop resp M L M i off []).1.length :=
    List.length_take M _
  constructor
  · omega
  · intro h
    simp only [List.length_nil, Nat.zero_add] at hf
    omega

/-- The timeseries filtering loop is a `filterMap`. -/
theorem timeseriesRaw_eq_filterMap (fs : List Feature) (xf yf : String) :
    timeseriesRaw fs xf yf = fs.filterMap (fun f =>
      match parse_date (getProp f xf), to_numeric (getProp f yf) with
      | some dt, some v => some (dt, v)
      | _, _ => none) := by
  induction fs with
  | nil => rfl
  | cons f fs ih =>
    simp only [timeseriesRaw, List.filterMap_cons]
    cases parse_date (getProp f xf) <;> cases to_numeric (getProp f yf) <;>
      simp [ih]

/-- A pair is in the raw timeseries exactly when some record delivers it. -/
theorem timeseriesRaw_mem_iff (fs : List Feature) (xf yf : String)
    (dt : Datetime) (v : ℚ) :
    (dt, v) ∈ timeseriesRaw fs xf yf ↔
      ∃ f ∈ fs, parse_date (getProp f xf) = some dt ∧
        to_numeric (getProp f yf) = some v := by
  rw [timeseriesRaw_eq_filterMap, List.mem_filterMap]
  constructor
  · rintro ⟨f, hf, hsel⟩
    refine ⟨f, hf, ?_⟩
    rcases hx : parse_date (getProp f xf) with _ | dt'
    · rw [hx] at hsel; simp at hsel
    · rcases hy : to_numeric (getProp f yf) with _ | v'
      · rw [hx, hy] at hsel; simp at hsel
      · rw [hx, hy] at hsel
        simp at hsel
        obtain ⟨rfl, rfl⟩ := hsel
        exact ⟨rfl, rfl⟩
  · rintro ⟨f, hf, hx, hy⟩
    exact ⟨f, hf, by rw [hx, hy]⟩

/-- Retained plus dropped records account exactly for the input count. -/
theorem timeseriesRaw_length (fs : List Feature) (xf yf : String) :
    (timeseriesRaw fs xf yf).length + fs.countP (droppedTS xf yf) = fs.length := by
  induction fs with
  | nil => simp [timeseriesRaw]
  | cons f fs ih =>
    simp only [List.countP_cons, List.length_cons]
    rcases hx : parse_date (getProp f xf) with _ | dt
    · simp only [timeseriesRaw, hx, droppedTS]
      cases hy : to_numeric (getProp f yf) <;> simp [hx, hy] <;> omega
    · rcases hy : to_numeric (getProp f yf) with _ | v
      · simp only [timeseriesRaw, hx, hy, droppedTS]
        simp [hx, hy]
        omega
      · simp only [timeseriesRaw, hx, hy, droppedTS, List.length_cons]
        simp [hx, hy]
        omega

/-- The per-group filtering loop is a `filterMap`. -/
theorem groupRaw_eq_filterMap (fs : List Feature) (xf yf gf g : String) :
    groupRaw fs xf yf gf g = fs.filterMap (fun f =>
      match parse_date (getProp f xf), to_numeric (getProp f yf) with
      | some dt, some v => if groupKey f gf = g then some (dt, v) else none
      | _, _ => none) := by
  induction fs with
  | nil => rfl
  | cons f fs ih =>
    simp only [groupRaw, List.filterMap_cons]
    cases parse_date (getProp f xf) with
    | none => cases to_numeric (getProp f yf) <;> simp [ih]
    | some dt =>
      cases to_numeric (getProp f yf) with
      | none => simp [ih]
      | some v => by_cases hg : groupKey f gf = g <;> simp [hg, ih]

/-- A pair is in a group's raw series exactly when some record of that group
delivers it. -/
theorem groupRaw_mem_iff (fs : List Feature) (xf yf gf g : String)
    (dt : Datetime) (v : ℚ) :
    (dt, v) ∈ groupRaw fs xf yf gf g ↔
      ∃ f ∈ fs, groupKey f gf = g ∧ parse_date (getProp f xf) = some dt ∧
        to_numeric (getProp f yf) = some v := by
  rw [groupRaw_eq_filterMap, List.mem_filterMap]
  constructor
  · rintro ⟨f, hf, hsel⟩
    refine ⟨f, hf, ?_⟩
    rcases hx : parse_date (getProp f xf) with _ | dt'
    · rw [hx] at hsel; simp at hsel
    · rcases hy : to_numeric (getProp f yf) with _ | v'
      · rw [hx, hy] at hsel; simp at hsel
      · by_cases hg : groupKey f gf = g
        · rw [hx, hy] at hsel
          simp [hg] at hsel
          obtain ⟨rfl, rfl⟩ := hsel
          exact ⟨hg, rfl, rfl⟩
        · rw [hx, hy] at hsel
          simp [hg] at hsel
  · rintro ⟨f, hf, hg, hx, hy⟩
    exact ⟨f, hf, by rw [hx, hy]; simp [hg]⟩

/-- The scatter point loop is a `filterMap`. -/
theorem plot_scatter_points_eq_filterMap (fs : List Feature) (xf yf : String) :
    plot_scatter_points fs xf yf = fs.filterMap (fun f =>
      match to_numeric (getProp f xf), to_numeric (getProp f yf) with
      | some x, some y => some (x, y)
      | _, _ => none) := by
  induction fs with
  | nil => rfl
  | cons f fs ih =>
    simp only [plot_scatter_points, List.filterMap_cons]
    cases to_numeric (getProp f xf) <;> cases to_numeric (getProp f yf) <;>
      simp [ih]

/-- A point is in the scatter data exactly when some record delivers it. -/
theorem plot_scatter_points_mem_iff (fs : List Feature) (xf yf : String)
    (x y : ℚ) :
    (x, y) ∈ plot_scatter_points fs xf yf ↔
      ∃ f ∈ fs, to_numeric (getProp f xf) = some x ∧
        to_numeric (getProp f yf) = some y := by
  rw [plot_scatter_points_eq_filterMap, List.mem_filterMap]
  constructor
  · rintro ⟨f, hf, hsel⟩
    refine ⟨f, hf, ?_⟩
    rcases hx : to_numeric (getProp f xf) with _ | x'
    · rw [hx] at hsel; simp at hsel
    · rcases hy : to_numeric (getProp f yf) with _ | y'
      · rw [hx, hy] at hsel; simp at hsel
      · rw [hx, hy] at hsel
        simp at hsel
        obtain ⟨rfl, rfl⟩ := hsel
        exact ⟨rfl, rfl⟩
  · rintro ⟨f, hf, hx, hy⟩
    exact ⟨f, hf, by rw [hx, hy]⟩

/-- Retained plus dropped scatter records account exactly for the input
count. -/
theorem plot_scatter_points_length (fs : List Feature) (xf yf : String) :
    (plot_scatter_points fs xf yf).length + fs.countP (droppedScatter xf yf) =
      fs.length := by
  induction fs with
  | nil => simp [plot_scatter_points]
  | cons f fs ih =>
    simp only [List.countP_cons, List.length_cons]
    rcases hx : to_numeric (getProp f xf) with _ | x
    · simp only [plot_scatter_points, hx, droppedScatter]
      cases hy : to_numeric (getProp f yf) <;> simp [hx, hy] <;> omega
    · rcases hy : to_numeric (getProp f yf) with _ | y
      · simp only [plot_scatter_points, hx, hy, droppedScatter]
        simp [hx, hy]
        omega
      · simp only [plot_scatter_points, hx, hy, droppedScatter, List.length_cons]
        simp [hx, hy]
        omega

/-- The longitudes of the map plot are exactly the first coordinates of the
retained Point features, in record order. -/
theorem plot_map_data_lons (fs : List Feature) (yfo : Option String) :
    (plot_map_data fs yfo).1 =
      fs.filterMap (fun f => (pointCoords f).map Prod.fst) := by
  induction fs with
  | nil => rfl
  | cons f fs ih =>
    simp only [plot_map_data, List.filterMap_cons]
    rcases hpc : pointCoords f with _ | ⟨c0, c1⟩
    · simp [ih]
    · cases yfo with
      | none => simp [ih]
      | some yf => by_cases he : yf.isEmpty <;> simp [he, ih]

/-- The latitudes of the map plot are exactly the second coordinates of the
retained Point features, in record order. -/
theorem plot_map_data_lats (fs : List Feature) (yfo : Option String) :
    (plot_map_data fs yfo).2.1 =
      fs.filterMap (fun f => (pointCoords f).map Prod.snd) := by
  induction fs with
  | nil => rfl
  | cons f fs ih =>
    simp only [plot_map_data, List.filterMap_cons]
    rcases hpc : pointCoords f with _ | ⟨c0, c1⟩
    · simp [ih]
    · cases yfo with
      | none => simp [ih]
      | some yf => by_cases he : yf.isEmpty <;> simp [he, ih]

/-- With a truthy `y_field`, the map plot's colour values are computed for
every retained Point feature, substituting `0` for a failed coercion. -/
theorem plot_map_data_values (fs : List Feature) (yf : String)
    (hyf : yf.isEmpty = false) :
    (plot_map_data fs (some yf)).2.2 =
      (fs.filter (fun f => (pointCoords f).isSome)).map
        (fun f => (to_numeric (getProp f yf)).getD 0) := by
  induction fs with
  | nil => rfl
  | cons f fs ih =>
    simp only [plot_map_data, List.filter_cons]
    rcases hpc : pointCoords f with _ | ⟨c0, c1⟩
    · simp [hpc, ih]
    · simp [hpc, hyf, ih]

/-- `digit?` recovers a digit rendered by `Nat.digitChar`. -/
theorem digit?_digitChar (n : Nat) (h : n ≤ 9) :
    digit? (Nat.digitChar n) = some n := by
  interval_cases n <;> decide

/-- A literal token consumes its own character. -/
theorem matchToks_lit (c : Char) (toks : List FmtTok) (rest : List Char)
    (acc : Datetime) :
    matchToks (.lit c :: toks) (c :: rest) acc = matchToks toks rest acc := by
  simp [matchToks]

/-- `%Y` consumes a zero-padded four-digit year. -/
theorem matchToks_Y (toks : List FmtTok) (rest : List Char) (acc : Datetime)
    (y : Nat) (hy : y ≤ 9999) :
    matchToks (.Y :: toks) (pad4 y ++ rest) acc =
      matchToks toks rest {acc with year := y} := by
  have h1 : y / 1000 ≤ 9 := by omega
  have h2 : y / 100 % 10 ≤ 9 := by omega
  have h3 : y / 10 % 10 ≤ 9 := by omega
  have h4 : y % 10 ≤ 9 := by omega
  simp only [pad4, List.cons_append, List.nil_append, matchToks,
    digit?_digitChar _ h1, digit?_digitChar _ h2, digit?_digitChar _ h3,
    digit?_digitChar _ h4]
  have hval : ((y / 1000 * 10 + y / 100 % 10) * 10 + y / 10 % 10) * 10 + y % 10
      = y := by omega
  rw [hval]

/-- `%m` consumes a zero-padded two-digit month when the rest of the
pattern succeeds. -/
theorem matchToks_m (toks : List FmtTok) (rest : List Char) (acc : Datetime)
    (mo : Nat) (h1 : 1 ≤ mo) (h2 : mo ≤ 12) (r : Datetime)
    (hk : matchToks toks rest {acc with month := mo} = some r) :
    matchToks (.m :: toks) (pad2 mo ++ rest) acc = some r := by
  have ha : mo / 10 ≤ 9 := by omega
  have hb : mo % 10 ≤ 9 := by omega
  have hcond : (mo / 10 = 1 ∧ mo % 10 ≤ 2) ∨ (mo / 10 = 0 ∧ 1 ≤ mo % 10) := by
    omega
  have hval : mo / 10 * 10 + mo % 10 = mo := by omega
  simp only [pad2, List.cons_append, List.nil_append, matchToks,
    digit?_digitChar _ ha, digit?_digitChar _ hb, if_pos hcond, hval, hk]

/-- `%d` consumes a zero-padded two-digit day when the rest of the pattern
succeeds. -/
theorem matchToks_d (toks : List FmtTok) (rest : List Char) (acc : Datetime)
    (dd : Nat) (h1 : 1 ≤ dd) (h2 : dd ≤ 31) (r : Datetime)
    (hk : matchToks toks rest {acc with day := dd} = some r) :
    matchToks (.d :: toks) (pad2 dd ++ rest) acc = some r := by
  have ha : dd / 10 ≤ 9 := by omega
  have hb : dd % 10 ≤ 9 := by omega
  have hcond : (dd / 10 = 3 ∧ dd % 10 ≤ 1) ∨ dd / 10 = 1 ∨ dd / 10 = 2 ∨
      (dd / 10 = 0 ∧ 1 ≤ dd % 10) := by omega
  have hval : dd / 10 * 10 + dd % 10 = dd := by omega
  simp only [pad2, List.cons_append, List.nil_append, matchToks,
    digit?_digitChar _ ha, digit?_digitChar _ hb, if_pos hcond, hval, hk]

/-- `%H` consumes a zero-padded two-digit hour when the rest of the pattern
succeeds. -/
theorem matchToks_H (toks : List FmtTok) (rest : List Char) (acc : Datetime)
    (h : Nat) (h2 : h ≤ 23) (r : Datetime)
    (hk : matchToks toks rest {acc with hour := h} = some r) :
    matchToks (.H :: toks) (pad2 h ++ rest) acc = some r := by
  have ha : h / 10 ≤ 9 := by omega
  have hb : h % 10 ≤ 9 := by omega
  have hcond : (h / 10 = 2 ∧ h % 10 ≤ 3) ∨ h / 10 ≤ 1 := by omega
  have hval : h / 10 * 10 + h % 10 = h := by omega
  simp only [pad2, List.cons_append, List.nil_append, matchToks,
    digit?_digitChar _ ha, digit?_digitChar _ hb, if_pos hcond, hval, hk]

/-- `%M` consumes a zero-padded two-digit minute when the rest of the
pattern succeeds. -/
theorem matchToks_M (toks : List FmtTok) (rest : List Char) (acc : Datetime)
    (mi : Nat) (h2 : mi ≤ 59) (r : Datetime)
    (hk : matchToks toks rest {acc with minute := mi} = some r) :
    matchToks (.M :: toks) (pad2 mi ++ rest) acc = some r := by
  have ha : mi / 10 ≤ 9 := by omega
  have hb : mi % 10 ≤ 9 := by omega
  have hcond : mi / 10 ≤ 5 := by omega
  have hval : mi / 10 * 10 + mi % 10 = mi := by omega
  simp only [pad2, List.cons_append, List.nil_append, matchToks,
    digit?_digitChar _ ha, digit?_digitChar _ hb, if_pos hcond, hval, hk]

/-- `%S` consumes a zero-padded two-digit second when the rest of the
pattern succeeds. -/
theorem matchToks_S (toks : List FmtTok) (rest : List Char) (acc : Datetime)
    (s : Nat) (h2 : s ≤ 59) (r : Datetime)
    (hk : matchToks toks rest {acc with second := s} = some r) :
    matchToks (.S :: toks) (pad2 s ++ rest) acc = some r := by
  have ha : s / 10 ≤ 9 := by omega
  have hb : s % 10 ≤ 9 := by omega
  have hcond : (s / 10 = 6 ∧ s % 10 ≤ 1) ∨ s / 10 ≤ 5 := by omega
  have hval : s / 10 * 10 + s % 10 = s := by omega
  simp only [pad2, List.cons_append, List.nil_append, matchToks,
    digit?_digitChar _ ha, digit?_digitChar _ hb, if_pos hcond, hval, hk]

/-- No month is longer than 31 days. -/
theorem daysInMonth_le (y mo : Nat) : daysInMonth y mo ≤ 31 := by
  unfold daysInMonth
  split_ifs <;> omega

/-- The ISO-with-Z format matches a canonical rendering and recovers all six
fields. -/
theorem matchToks_canonicalZ (y mo dd h mi s : Nat)
    (hy : y ≤ 9999) (hm1 : 1 ≤ mo) (hm2 : mo ≤ 12)
    (hd1 : 1 ≤ dd) (hd2 : dd ≤ 31) (hh : h ≤ 23) (hmi : mi ≤ 59)
    (hs : s ≤ 59) :
    matchToks fmtISOZ (canonicalZ y mo dd h mi s).toList strptimeDefault =
      some ⟨y, mo, dd, h, mi, s⟩ := by
  have hl : (canonicalZ y mo dd h mi s).toList =
      pad4 y ++ '-' :: (pad2 mo ++ '-' :: (pad2 dd ++ 'T' ::
        (pad2 h ++ ':' :: (pad2 mi ++ ':' :: (pad2 s ++ ['Z']))))) := rfl
  rw [hl]
  show matchToks (.Y :: [.lit '-', .m, .lit '-', .d, .lit 'T', .H, .lit ':',
    .M, .lit ':', .S, .lit 'Z']) _ _ = _
  rw [matchToks_Y _ _ _ y hy, matchToks_lit]
  apply matchToks_m _ _ _ mo hm1 hm2
  rw [matchToks_lit]
  apply matchToks_d _ _ _ dd hd1 hd2
  rw [matchToks_lit]
  apply matchToks_H _ _ _ h hh
  rw [matchToks_lit]
  apply matchToks_M _ _ _ mi hmi
  rw [matchToks_lit]
  apply matchToks_S _ _ _ s hs
  rw [matchToks_lit]
  rfl

/-- `strptime` with the first format parses a canonical rendering of any
valid instant back to that instant. -/
theorem strptime_canonicalZ (y mo dd h mi s : Nat) (hy1 : 1 ≤ y)
    (hy : y ≤ 9999) (hm1 : 1 ≤ mo) (hm2 : mo ≤ 12) (hd1 : 1 ≤ dd)
    (hd2 : dd ≤ daysInMonth y mo) (hh : h ≤ 23) (hmi : mi ≤ 59)
    (hs : s ≤ 59) :
    strptime fmtISOZ (canonicalZ y mo dd h mi s) =
      some ⟨y, mo, dd, h, mi, s⟩ := by
  have hd31 : dd ≤ 31 := le_trans hd2 (daysInMonth_le y mo)
  unfold strptime
  rw [matchToks_canonicalZ y mo dd h mi s hy hm1 hm2 hd1 hd31 hh hmi hs]
  have hv : validDatetime ⟨y, mo, dd, h, mi, s⟩ = true := by
    simp only [validDatetime, Bool.and_eq_true, decide_eq_true_eq]
    omega
  simp [hv]

/-- `firstParse` returns the first successful format's result. -/
theorem firstParse_first_success :
    ∀ (fmts : List (List FmtTok)) (s : String) (k : Nat)
      (hk : k < fmts.length) (t : Datetime),
      strptime (fmts.get ⟨k, hk⟩) s = some t →
      (∀ (j : Nat) (hj : j < k),
        strptime (fmts.get ⟨j, Nat.lt_trans hj hk⟩) s = none) →
      firstParse fmts s = some t := by
  intro fmts
  induction fmts with
  | nil => intro s k hk; simp at hk
  | cons f fs ih =>
    intro s k hk t hsucc hfail
    cases k with
    | zero =>
      have h0 : strptime f s = some t := hsucc
      simp [firstParse, h0]
    | succ k' =>
      have h0 : strptime f s = none := hfail 0 (Nat.succ_pos k')
      simp only [firstParse, h0]
      exact ih s k' (Nat.lt_of_succ_lt_succ hk) t hsucc
        (fun j hj => hfail (j + 1) (Nat.succ_lt_succ hj))

/-- When every format fails, `firstParse` gives `none`. -/
theorem firstParse_none :
    ∀ (fmts : List (List FmtTok)) (s : String),
      (∀ fmt ∈ fmts, strptime fmt s = none) → firstParse fmts s = none := by
  intro fmts
  induction fmts with
  | nil => intro s _; rfl
  | cons f fs ih =>
    intro s h
    simp only [firstParse, h f (List.mem_cons_self f fs)]
    exact ih s (fun g hg => h g (List.mem_cons_of_mem f hg))

/-- Offset bookkeeping of successive requests of the export/visualize loop,
via the trace characterization. -/
theorem fetch_all_loop_offset_step (resp : Nat → Page α) (M L : Nat)
    (fuel off : Nat) (p : Nat) (lg lg' : ReqLog)
    (h : (fetch_all_loop resp M L fuel 0 off []).2[p]? = some lg)
    (h' : (fetch_all_loop resp M L fuel 0 off []).2[p + 1]? = some lg') :
    lg'.offset = lg.offset + (resp p).features.length := by
  have hp' : p + 1 < (fetch_all_loop resp M L fuel 0 off []).2.length := by
    rcases List.getElem?_eq_some.mp h' with ⟨hh, _⟩; exact hh
  have hp : p < (fetch_all_loop resp M L fuel 0 off []).2.length := by omega
  rw [fetch_all_loop_getElem resp M L fuel 0 off [] p hp] at h
  rw [fetch_all_loop_getElem resp M L fuel 0 off [] (p + 1) hp'] at h'
  have e1 := Option.some.inj h
  have e2 := Option.some.inj h'
  subst e1; subst e2
  show off + ∑ j ∈ Finset.range (p + 1), (resp (0 + j)).features.length =
    off + (∑ j ∈ Finset.range p, (resp (0 + j)).features.length) +
      (resp p).features.length
  rw [Finset.sum_range_succ]
  simp only [Nat.zero_add]
  omega

/-- C1: for every cap `c ≥ 1` and every sequence of server page responses,
each of the three collection operations (`geomet_export.fetch_all`,
`geomet_visualize.fetch_all`, `geomet_fetch.fetch_all_pages`), invoked with
effective maximum item count `c`, returns at most `c` records, and returns
exactly `c` only if the server delivered at least `c` records over the
issued requests. -/
theorem collect_cap_bound {α : Type} (resp : Nat → Page α)
    (ea : ExportArgs) (va : VisualizeArgs) (fa : FetchArgs) (mi : Nat)
    (h1 : 1 ≤ ea.maxItemsEff) (h2 : 1 ≤ va.maxItemsEff) (h3 : 1 ≤ mi) :
    ((export_fetch_all resp ea).1.length ≤ ea.maxItemsEff ∧
      ((export_fetch_all resp ea).1.length = ea.maxItemsEff →
        ea.maxItemsEff ≤ ((export_fetch_all resp ea).2.map ReqLog.got).sum)) ∧
    ((visualize_fetch_all resp va).1.length ≤ va.maxItemsEff ∧
      ((visualize_fetch_all resp va).1.length = va.maxItemsEff →
        va.maxItemsEff ≤ ((visualize_fetch_all resp va).2.map ReqLog.got).sum)) ∧
    ((fetch_all_pages resp fa mi).1.length ≤ mi ∧
      ((fetch_all_pages resp fa mi).1.length = mi →
        mi ≤ ((fetch_all_pages resp fa mi).2.map ReqLog.got).sum)) := by
  refine ⟨?_, ?_, ?_⟩
  · exact take_cap_core resp ea.maxItemsEff ea.limitPerPage 0 0
  · exact take_cap_core resp va.maxItemsEff va.limitPerPage 0 0
  · have h := take_cap_core resp mi (min (orDefault fa.limit 100) 500) 0
      (orDefault fa.offset 0)
    have hb := fetch_all_pages_loop_eq resp mi (min (orDefault fa.limit 100) 500)
      mi 0 (orDefault fa.offset 0) []
    have e1 : (fetch_all_pages resp fa mi).1 =
        (fetch_all_loop resp mi (min (orDefault fa.limit 100) 500) mi 0
          (orDefault fa.offset 0) []).1.take mi := by
      simp only [fetch_all_pages, hb]
    have e2 : ((fetch_all_pages resp fa mi).2.map ReqLog.got).sum =
        ((fetch_all_loop resp mi (min (orDefault fa.limit 100) 500) mi 0
          (orDefault fa.offset 0) []).2.map ReqLog.got).sum := by
      simp only [fetch_all_pages, hb, List.map_map]
      rfl
    rw [e1, e2]
    exact h

/-- C1 witness: with cap 2 and a server holding plenty of records, exactly
two records come back and the server delivered two records. -/
theorem collect_cap_bound_witness :
    ((export_fetch_all c1Resp ⟨some 2, false, 1000⟩).1.length ≤ 2 ∧
      (2 : Nat) ≤ ((export_fetch_all c1Resp ⟨some 2, false, 1000⟩).2.map ReqLog.got).sum) ∧
    ((visualize_fetch_all c1Resp ⟨some 2⟩).1.length ≤ 2 ∧
      (2 : Nat) ≤ ((visualize_fetch_all c1Resp ⟨some 2⟩).2.map ReqLog.got).sum) ∧
    ((fetch_all_pages c1Resp ⟨some 2, some 0, true, 2⟩ 2).1.length ≤ 2 ∧
      (2 : Nat) ≤ ((fetch_all_pages c1Resp ⟨some 2, some 0, true, 2⟩ 2).2.map ReqLog.got).sum) := by
  have h := collect_cap_bound c1Resp ⟨some 2, false, 1000⟩ ⟨some 2⟩
    ⟨some 2, some 0, true, 2⟩ 2 (by decide) (by decide) (by decide)
  exact ⟨⟨h.1.1, h.1.2 (by decide)⟩, ⟨h.2.1.1, h.2.1.2 (by decide)⟩,
    ⟨h.2.2.1, h.2.2.2 (by decide)⟩⟩

/-- C2 counterexample: with `--limit 10` and WITHOUT `--all-pages`,
`geomet_export.fetch_all` issues two requests when the first page is short
and carries a `next` link, so single-page mode does not cap the run at one
request. -/
theorem export_single_page_two_requests :
    c2Ea.all_pages = false ∧ (export_fetch_all c2Resp c2Ea).2.length = 2 := by
  decide

/-- C2 (amended): `geomet_fetch.main` without `--all-pages` issues exactly
one request irrespective of any `next` link; `geomet_export.fetch_all`
(and `geomet_visualize.fetch_all`) may keep paginating up to the
limit-derived cap even without `--all-pages`. -/
theorem fetch_main_single_page_one_request {α : Type} (resp : Nat → Page α)
    (a : FetchArgs) (h : a.all_pages = false) : (fetch_main resp a).2 = 1 := by
  simp [fetch_main, h]

/-- C2 witness: a concrete single-page-mode run of `geomet_fetch.main`
issues one request even though the response carries a `next` link. -/
theorem fetch_main_single_page_witness : (fetch_main c2Resp c2Fa).2 = 1 :=
  fetch_main_single_page_one_request c2Resp c2Fa rfl

/-- C3 counterexample: `geomet_fetch.fetch_all_pages` with `--limit 10
--max-items 5` sends `limit = 10` on its first request, not
`min(10, 5 - 0) = 5`: the limit parameter is never reduced by the remaining
headroom in that implementation. -/
theorem fetch_all_pages_limit_not_min :
    (fetch_all_pages c3Resp c3Fa 5).2.map ReqLog.limit = [10] ∧
      min 10 (5 - 0) = 5 ∧ (10 : Nat) ≠ 5 := by
  decide

/-- C3 (amended): in `geomet_export.fetch_all` and
`geomet_visualize.fetch_all` every issued request sends
`limit = min(pageSizeHint clamped to 500, cap - collectedSoFar)`; in
`geomet_fetch.fetch_all_pages` every issued request sends the clamped page
size hint itself, never reduced by the remaining headroom.  In all three, a
request is issued only while `cap - collectedSoFar` is positive. -/
theorem page_limit_formula {α : Type} (resp : Nat → Page α)
    (ea : ExportArgs) (va : VisualizeArgs) (fa : FetchArgs) (mi : Nat) :
    (∀ lg ∈ (export_fetch_all resp ea).2,
        lg.limit = min ea.limitPerPage (ea.maxItemsEff - lg.before) ∧
          lg.before < ea.maxItemsEff) ∧
    (∀ lg ∈ (visualize_fetch_all resp va).2,
        lg.limit = min va.limitPerPage (va.maxItemsEff - lg.before) ∧
          lg.before < va.maxItemsEff) ∧
    (∀ lg ∈ (fetch_all_pages resp fa mi).2,
        lg.limit = min (orDefault fa.limit 100) 500 ∧ lg.before < mi) := by
  refine ⟨?_, ?_, ?_⟩
  · intro lg hm
    exact ⟨fetch_all_loop_limit_eq resp ea.maxItemsEff ea.limitPerPage
        ea.maxItemsEff 0 0 [] lg hm,
      fetch_all_loop_before_lt resp ea.maxItemsEff ea.limitPerPage
        ea.maxItemsEff 0 0 [] lg hm⟩
  · intro lg hm
    exact ⟨fetch_all_loop_limit_eq resp va.maxItemsEff va.limitPerPage
        va.maxItemsEff 0 0 [] lg hm,
      fetch_all_loop_before_lt resp va.maxItemsEff va.limitPerPage
        va.maxItemsEff 0 0 [] lg hm⟩
  · intro lg hm
    have hb := fetch_all_pages_loop_eq resp mi (min (orDefault fa.limit 100) 500)
      mi 0 (orDefault fa.offset 0) []
    have hm' : lg ∈ (fetch_all_loop resp mi (min (orDefault fa.limit 100) 500)
        mi 0 (orDefault fa.offset 0) []).2.map
          (fun l => (⟨min (orDefault fa.limit 100) 500, l.offset, l.before,
            l.got⟩ : ReqLog)) := by
      have : (fetch_all_pages resp fa mi).2 =
          (fetch_all_loop resp mi (min (orDefault fa.limit 100) 500)
            mi 0 (orDefault fa.offset 0) []).2.map
            (fun l => (⟨min (orDefault fa.limit 100) 500, l.offset, l.before,
              l.got⟩ : ReqLog)) := by
        simp only [fetch_all_pages, hb]
      rw [this] at hm
      exact hm
    rcases List.mem_map.mp hm' with ⟨lg0, hlg0, rfl⟩
    refine ⟨rfl, ?_⟩
    exact fetch_all_loop_before_lt resp mi (min (orDefault fa.limit 100) 500)
      mi 0 (orDefault fa.offset 0) [] lg0 hlg0

/-- C3 witness: a concrete export request trace entry satisfies the limit
formula with a positive remaining headroom. -/
theorem page_limit_formula_witness :
    (⟨7, 0, 0, 0⟩ : ReqLog).limit =
        min c3Ea.limitPerPage (c3Ea.maxItemsEff - (⟨7, 0, 0, 0⟩ : ReqLog).before) ∧
      (⟨7, 0, 0, 0⟩ : ReqLog).before < c3Ea.maxItemsEff := by
  have h := (page_limit_formula c3RespW c3Ea ⟨some 7⟩ ⟨some 7, some 0, true, 5⟩ 5).1
    ⟨7, 0, 0, 0⟩ (by decide)
  exact h

/-- C4: if the response to request `k` carries an empty `features` array,
every collector halts with at most `k + 1` issued requests, a `next` link on
that or an earlier response notwithstanding. -/
theorem empty_page_halts {α : Type} (resp : Nat → Page α) (k : Nat)
    (ea : ExportArgs) (va : VisualizeArgs) (fa : FetchArgs) (mi : Nat)
    (h : (resp k).features = []) :
    (export_fetch_all resp ea).2.length ≤ k + 1 ∧
    (visualize_fetch_all resp va).2.length ≤ k + 1 ∧
    (fetch_all_pages resp fa mi).2.length ≤ k + 1 := by
  have hk : (resp k).features.isEmpty := by simp [h]
  refine ⟨?_, ?_, ?_⟩
  · have e : (export_fetch_all resp ea).2 =
        (fetch_all_loop resp ea.maxItemsEff ea.limitPerPage
          ea.maxItemsEff 0 0 []).2 := rfl
    have := fetch_all_loop_empty_halts resp ea.maxItemsEff ea.limitPerPage k hk
      ea.maxItemsEff 0 0 [] (by omega)
    rw [e]
    omega
  · have e : (visualize_fetch_all resp va).2 =
        (fetch_all_loop resp va.maxItemsEff va.limitPerPage
          va.maxItemsEff 0 0 []).2 := rfl
    have := fetch_all_loop_empty_halts resp va.maxItemsEff va.limitPerPage k hk
      va.maxItemsEff 0 0 [] (by omega)
    rw [e]
    omega
  · have hb := fetch_all_pages_loop_eq resp mi (min (orDefault fa.limit 100) 500)
      mi 0 (orDefault fa.offset 0) []
    have hlen : (fetch_all_pages resp fa mi).2.length =
        (fetch_all_loop resp mi (min (orDefault fa.limit 100) 500) mi 0
          (orDefault fa.offset 0) []).2.length := by
      simp only [fetch_all_pages, hb, List.length_map]
    have := fetch_all_loop_empty_halts resp mi (min (orDefault fa.limit 100) 500)
      k hk mi 0 (orDefault fa.offset 0) [] (by omega)
    omega

/-- C4 witness: page 1 is empty but advertises a `next` link; all three
collectors stop within two requests. -/
theorem empty_page_halts_witness :
    (export_fetch_all c4Resp ⟨some 5, false, 1000⟩).2.length ≤ 2 ∧
    (visualize_fetch_all c4Resp ⟨some 5⟩).2.length ≤ 2 ∧
    (fetch_all_pages c4Resp ⟨some 5, some 0, true, 5⟩ 5).2.length ≤ 2 :=
  empty_page_halts c4Resp 1 ⟨some 5, false, 1000⟩ ⟨some 5⟩
    ⟨some 5, some 0, true, 5⟩ 5 rfl

/-- C5: across successive requests of `geomet_export.fetch_all` and of
`geomet_fetch.fetch_all_pages`, the offset sent with request `p + 1` equals
the offset of request `p` plus the number of records the server actually
returned for request `p`. -/
theorem offset_advances_by_returned {α : Type} (resp : Nat → Page α)
    (ea : ExportArgs) (fa : FetchArgs) (mi : Nat) :
    (∀ (p : Nat) (lg lg' : ReqLog),
        (export_fetch_all resp ea).2[p]? = some lg →
        (export_fetch_all resp ea).2[p + 1]? = some lg' →
        lg'.offset = lg.offset + (resp p).features.length) ∧
    (∀ (p : Nat) (lg lg' : ReqLog),
        (fetch_all_pages resp fa mi).2[p]? = some lg →
        (fetch_all_pages resp fa mi).2[p + 1]? = some lg' →
        lg'.offset = lg.offset + (resp p).features.length) := by
  constructor
  · intro p lg lg' h h'
    exact fetch_all_loop_offset_step resp ea.maxItemsEff ea.limitPerPage
      ea.maxItemsEff 0 p lg lg' h h'
  · intro p lg lg' h h'
    have hb := fetch_all_pages_loop_eq resp mi (min (orDefault fa.limit 100) 500)
      mi 0 (orDefault fa.offset 0) []
    have e : (fetch_all_pages resp fa mi).2 =
        (fetch_all_loop resp mi (min (orDefault fa.limit 100) 500) mi 0
          (orDefault fa.offset 0) []).2.map
          (fun l => (⟨min (orDefault fa.limit 100) 500, l.offset, l.before,
            l.got⟩ : ReqLog)) := by
      simp only [fetch_all_pages, hb]
    rw [e, List.getElem?_map] at h h'
    rcases Option.map_eq_some'.mp h with ⟨lg0, hlg0, rfl⟩
    rcases Option.map_eq_some'.mp h' with ⟨lg0', hlg0', rfl⟩
    show lg0'.offset = lg0.offset + (resp p).features.length
    exact fetch_all_loop_offset_step resp mi (min (orDefault fa.limit 100) 500)
      mi (orDefault fa.offset 0) p lg0 lg0' hlg0 hlg0'

/-- C5 witness: with a short first page of two records, the second request
is sent with offset 2 = 0 + 2, not the requested page size 5. -/
theorem offset_advances_witness :
    (⟨3, 2, 2, 0⟩ : ReqLog).offset =
      (⟨5, 0, 0, 2⟩ : ReqLog).offset + (c5Resp 0).features.length :=
  (offset_advances_by_returned c5Resp c5Ea c5Fa 5).1 0 ⟨5, 0, 0, 2⟩ ⟨3, 2, 2, 0⟩
    (by decide) (by decide)

/-- C6: for every cap and every (arbitrarily long, adversarial) sequence of
responses, the export/visualize collection loop issues at most `cap`
requests, and adding any amount of extra fuel beyond the cap never changes
the run: the loop terminates within `cap` iterations. -/
theorem collector_request_bound {α : Type} (resp : Nat → Page α)
    (ea : ExportArgs) (va : VisualizeArgs) :
    ((export_fetch_all resp ea).2.length ≤ ea.maxItemsEff ∧
      ∀ fuel, ea.maxItemsEff ≤ fuel →
        fetch_all_loop resp ea.maxItemsEff ea.limitPerPage fuel 0 0 [] =
          fetch_all_loop resp ea.maxItemsEff ea.limitPerPage ea.maxItemsEff 0 0 []) ∧
    ((visualize_fetch_all resp va).2.length ≤ va.maxItemsEff ∧
      ∀ fuel, va.maxItemsEff ≤ fuel →
        fetch_all_loop resp va.maxItemsEff va.limitPerPage fuel 0 0 [] =
          fetch_all_loop resp va.maxItemsEff va.limitPerPage va.maxItemsEff 0 0 []) := by
  constructor
  · constructor
    · have := fetch_all_loop_trace_le resp ea.maxItemsEff ea.limitPerPage
        ea.maxItemsEff 0 0 []
      simp only [List.length_nil, Nat.sub_zero] at this
      exact this
    · intro fuel hf
      exact fetch_all_loop_stable resp ea.maxItemsEff ea.limitPerPage fuel
        ea.maxItemsEff 0 0 [] (by simp; omega) (by simp)
  · constructor
    · have := fetch_all_loop_trace_le resp va.maxItemsEff va.limitPerPage
        va.maxItemsEff 0 0 []
      simp only [List.length_nil, Nat.sub_zero] at this
      exact this
    · intro fuel hf
      exact fetch_all_loop_stable resp va.maxItemsEff va.limitPerPage fuel
        va.maxItemsEff 0 0 [] (by simp; omega) (by simp)

/-- C6 witness: with cap 3 against a server that always advertises more
data, the loop stops after 3 requests and extra fuel changes nothing. -/
theorem collector_request_bound_witness :
    (export_fetch_all c6Resp c6Ea).2.length ≤ c6Ea.maxItemsEff ∧
      fetch_all_loop c6Resp c6Ea.maxItemsEff c6Ea.limitPerPage 10 0 0 [] =
        fetch_all_loop c6Resp c6Ea.maxItemsEff c6Ea.limitPerPage
          c6Ea.maxItemsEff 0 0 [] := by
  have h := collector_request_bound c6Resp c6Ea ⟨some 3⟩
  exact ⟨h.1.1, h.1.2 10 (by decide)⟩

/-- C7 counterexample: `plot_scatter` hands the points to the renderer in
record order without sorting, so its x-sequence need not be ascending — the
ascending-x guarantee does not hold for every chart input. -/
theorem scatter_not_sorted :
    plot_scatter_points c7Features "X" "Y" = [(2, 1), (1, 1)] ∧
      ¬ List.Pairwise (fun p q : ℚ × ℚ => p.1 ≤ q.1)
        (plot_scatter_points c7Features "X" "Y") := by
  have he : plot_scatter_points c7Features "X" "Y" = [(2, 1), (1, 1)] := by
    decide
  refine ⟨he, ?_⟩
  intro hp
  rw [he] at hp
  rcases List.pairwise_cons.mp hp with ⟨hrel, _⟩
  have h21 : (2 : ℚ) ≤ 1 := hrel (1, 1) (by simp)
  norm_num at h21

/-- C7 (amended): the timeseries series (ungrouped and per group) are
ascending-sorted by x; a record with unparsable x or non-numeric y is absent
from the ungrouped series, from every group's series and from the scatter
data, whose retained counts equal input minus dropped exactly; the scatter
data, however, preserves record order and is not sorted by x. -/
theorem series_sorted_and_exact :
    (∀ (fs : List Feature) (xf yf : String),
      List.Pairwise (fun p q : Datetime × ℚ => dtKey p.1 ≤ dtKey q.1)
        (plot_timeseries_pairs fs xf yf)) ∧
    (∀ (fs : List Feature) (xf yf gf g : String),
      List.Pairwise (fun p q : Datetime × ℚ => dtKey p.1 ≤ dtKey q.1)
        (plot_timeseries_group fs xf yf gf g)) ∧
    (∀ (fs : List Feature) (xf yf : String) (p : Datetime × ℚ),
      p ∈ plot_timeseries_pairs fs xf yf →
        ∃ f ∈ fs, parse_date (getProp f xf) = some p.1 ∧
          to_numeric (getProp f yf) = some p.2) ∧
    (∀ (fs : List Feature) (xf yf gf g : String) (p : Datetime × ℚ),
      p ∈ plot_timeseries_group fs xf yf gf g →
        ∃ f ∈ fs, groupKey f gf = g ∧ parse_date (getProp f xf) = some p.1 ∧
          to_numeric (getProp f yf) = some p.2) ∧
    (∀ (fs : List Feature) (xf yf : String),
      (plot_timeseries_pairs fs xf yf).length + fs.countP (droppedTS xf yf)
        = fs.length) ∧
    (∀ (fs : List Feature) (xf yf : String) (p : ℚ × ℚ),
      p ∈ plot_scatter_points fs xf yf →
        ∃ f ∈ fs, to_numeric (getProp f xf) = some p.1 ∧
          to_numeric (getProp f yf) = some p.2) ∧
    (∀ (fs : List Feature) (xf yf : String),
      (plot_scatter_points fs xf yf).length +
        fs.countP (droppedScatter xf yf) = fs.length) := by
  refine ⟨?_, ?_, ?_, ?_, ?_, ?_, ?_⟩
  · intro fs xf yf
    exact (List.sorted_insertionSort pairLe (timeseriesRaw fs xf yf)).imp
      (fun hab => Or.elim hab (fun h => Nat.le_of_lt h)
        (fun h => Nat.le_of_eq h.1))
  · intro fs xf yf gf g
    exact (List.sorted_insertionSort pairLe (groupRaw fs xf yf gf g)).imp
      (fun hab => Or.elim hab (fun h => Nat.le_of_lt h)
        (fun h => Nat.le_of_eq h.1))
  · intro fs xf yf p hp
    obtain ⟨dt, v⟩ := p
    exact (timeseriesRaw_mem_iff fs xf yf dt v).mp
      ((List.perm_insertionSort pairLe _).mem_iff.mp hp)
  · intro fs xf yf gf g p hp
    obtain ⟨dt, v⟩ := p
    exact (groupRaw_mem_iff fs xf yf gf g dt v).mp
      ((List.perm_insertionSort pairLe _).mem_iff.mp hp)
  · intro fs xf yf
    have h1 := timeseriesRaw_length fs xf yf
    have h2 : (plot_timeseries_pairs fs xf yf).length =
        (timeseriesRaw fs xf yf).length :=
      (List.perm_insertionSort pairLe _).length_eq
    omega
  · intro fs xf yf p hp
    obtain ⟨x, y⟩ := p
    exact (plot_scatter_points_mem_iff fs xf yf x y).mp hp
  · exact plot_scatter_points_length

/-- C7 witness: a concrete one-record input is retained, and the retained
count accounts exactly for the input. -/
theorem series_sorted_witness :
    (∃ f ∈ [c7WFeature], parse_date (getProp f "D") =
        some ⟨2023, 5, 17, 0, 0, 0⟩ ∧ to_numeric (getProp f "V") = some 3) ∧
    (plot_timeseries_pairs [c7WFeature] "D" "V").length +
      [c7WFeature].countP (droppedTS "D" "V") = 1 := by
  constructor
  · exact series_sorted_and_exact.2.2.1 [c7WFeature] "D" "V"
      (⟨2023, 5, 17, 0, 0, 0⟩, 3) (by decide)
  · exact series_sorted_and_exact.2.2.2.2.1 [c7WFeature] "D" "V"

/-- C8 counterexample: in `plot_map`, a Point record whose y-value fails
numeric coercion appears in the output with the substitute value 0 instead
of being excluded. -/
theorem map_substitutes_zero :
    to_numeric (getProp c8F "TEMP") = none ∧
      plot_map_data [c8F] (some "TEMP") = ([1], [2], [0]) := by
  decide

/-- C8 (amended): per-record shaping ambiguities never raise: the
timeseries shaping silently excludes records with unparsable x or
non-numeric y, and the map shaping silently excludes records without Point
geometry; but a Point record whose y-value fails numeric coercion is
retained by the map plot with substitute value 0 rather than excluded. -/
theorem shaping_silent_exclusion :
    (∀ (fs : List Feature) (xf yf : String) (p : Datetime × ℚ),
      p ∈ plot_timeseries_pairs fs xf yf →
        ∃ f ∈ fs, parse_date (getProp f xf) = some p.1 ∧
          to_numeric (getProp f yf) = some p.2) ∧
    (∀ (fs : List Feature) (yfo : Option String),
      (plot_map_data fs yfo).1 =
        fs.filterMap (fun f => (pointCoords f).map Prod.fst)) ∧
    (∀ (fs : List Feature) (yfo : Option String),
      (plot_map_data fs yfo).2.1 =
        fs.filterMap (fun f => (pointCoords f).map Prod.snd)) ∧
    (∀ (fs : List Feature) (yf : String), yf.isEmpty = false →
      (plot_map_data fs (some yf)).2.2 =
        (fs.filter (fun f => (pointCoords f).isSome)).map
          (fun f => (to_numeric (getProp f yf)).getD 0)) ∧
    (∀ (fs : List Feature) (yf : String) (f : Feature), yf.isEmpty = false →
      f ∈ fs → (pointCoords f).isSome →
      to_numeric (getProp f yf) = none →
      (0 : ℚ) ∈ (plot_map_data fs (some yf)).2.2) := by
  refine ⟨?_, plot_map_data_lons, plot_map_data_lats,
    fun fs yf h => plot_map_data_values fs yf h, ?_⟩
  · intro fs xf yf p hp
    obtain ⟨dt, v⟩ := p
    exact (timeseriesRaw_mem_iff fs xf yf dt v).mp
      ((List.perm_insertionSort pairLe _).mem_iff.mp hp)
  · intro fs yf f hyf hf hpt hy
    rw [plot_map_data_values fs yf hyf]
    refine List.mem_map.mpr ⟨f, List.mem_filter.mpr ⟨hf, by simpa using hpt⟩, ?_⟩
    rw [hy]
    rfl

/-- C8 witness: a Point record with no y-property is retained by the map
plot with value 0. -/
theorem shaping_silent_witness :
    (0 : ℚ) ∈ (plot_map_data [c8W] (some "TEMP")).2.2 :=
  shaping_silent_exclusion.2.2.2.2 [c8W] "TEMP" c8W (by decide)
    (List.mem_singleton_self _) (by decide) (by decide)

/-- C9: `parse_date` returns `none` on every non-string input; on strings it
returns the first successful parse of the six-format priority list, `none`
when all fail, and never raises; and every canonical
`YYYY-MM-DDTHH:MM:SSZ` rendering of a valid instant parses back to exactly
the wall-clock instant it denotes. -/
theorem parse_date_contract :
    (∀ v : JValue, (∀ s, v ≠ .str s) → parse_date v = none) ∧
    (∀ (s : String) (k : Nat) (hk : k < dateFormats.length) (t : Datetime),
      strptime (dateFormats.get ⟨k, hk⟩) s = some t →
      (∀ (j : Nat) (hj : j < k),
        strptime (dateFormats.get ⟨j, Nat.lt_trans hj hk⟩) s = none) →
      parse_date (.str s) = some t) ∧
    (∀ s : String, (∀ fmt ∈ dateFormats, strptime fmt s = none) →
      parse_date (.str s) = none) ∧
    (∀ y mo dd h mi s : Nat, 1 ≤ y → y ≤ 9999 → 1 ≤ mo → mo ≤ 12 → 1 ≤ dd →
      dd ≤ daysInMonth y mo → h ≤ 23 → mi ≤ 59 → s ≤ 59 →
      parse_date (.str (canonicalZ y mo dd h mi s)) =
        some ⟨y, mo, dd, h, mi, s⟩) := by
  refine ⟨?_, ?_, ?_, ?_⟩
  · intro v hv
    cases v with
    | str s => exact absurd rfl (hv s)
    | num q => rfl
    | bool b => rfl
    | null => rfl
  · intro s k hk t hsucc hfail
    exact firstParse_first_success dateFormats s k hk t hsucc hfail
  · intro s h
    exact firstParse_none dateFormats s h
  · intro y mo dd h mi s hy1 hy hm1 hm2 hd1 hd2 hh hmi hs
    show firstParse dateFormats (canonicalZ y mo dd h mi s) = _
    simp only [dateFormats, firstParse,
      strptime_canonicalZ y mo dd h mi s hy1 hy hm1 hm2 hd1 hd2 hh hmi hs]

/-- C9 witness: null input gives none, and a concrete canonical timestamp
round-trips to its denoted instant. -/
theorem parse_date_contract_witness :
    parse_date .null = none ∧
      parse_date (.str (canonicalZ 2023 5 17 8 30 0)) =
        some ⟨2023, 5, 17, 8, 30, 0⟩ := by
  constructor
  · exact parse_date_contract.1 .null (fun s h => JValue.noConfusion h)
  · exact parse_date_contract.2.2.2 2023 5 17 8 30 0 (by decide) (by decide)
      (by decide) (by decide) (by decide) (by decide) (by decide) (by decide)
      (by decide)

/-- C10: `to_numeric` accepts Python booleans — `float(True) = 1.0`,
`float(False) = 0.0` — so a record with a parseable x and a boolean y-value
is retained as a numeric data point by the timeseries and scatter
consumers. -/
theorem to_numeric_bool_retained :
    to_numeric (.bool true) = some 1 ∧ to_numeric (.bool false) = some 0 ∧
    (∀ (fs : List Feature) (xf yf : String) (f : Feature) (dt : Datetime)
        (b : Bool),
      f ∈ fs → parse_date (getProp f xf) = some dt → getProp f yf = .bool b →
      (dt, if b then (1 : ℚ) else 0) ∈ plot_timeseries_pairs fs xf yf) ∧
    (∀ (fs : List Feature) (xf yf : String) (f : Feature) (x : ℚ) (b : Bool),
      f ∈ fs → to_numeric (getProp f xf) = some x → getProp f yf = .bool b →
      (x, if b then (1 : ℚ) else 0) ∈ plot_scatter_points fs xf yf) := by
  refine ⟨rfl, rfl, ?_, ?_⟩
  · intro fs xf yf f dt b hf hx hy
    have hmem : (dt, if b then (1 : ℚ) else 0) ∈ timeseriesRaw fs xf yf :=
      (timeseriesRaw_mem_iff fs xf yf dt _).mpr ⟨f, hf, hx, by rw [hy]; rfl⟩
    exact (List.perm_insertionSort pairLe _).mem_iff.mpr hmem
  · intro fs xf yf f x b hf hx hy
    exact (plot_scatter_points_mem_iff fs xf yf x _).mpr
      ⟨f, hf, hx, by rw [hy]; rfl⟩

/-- C10 witness: a record with y-value `True` appears as the numeric point
1.0 in the timeseries output. -/
theorem to_numeric_bool_witness :
    to_numeric (.bool true) = some 1 ∧
      (⟨2023, 5, 17, 0, 0, 0⟩, (1 : ℚ)) ∈
        plot_timeseries_pairs [c10Feature] "D" "V" := by
  constructor
  · exact to_numeric_bool_retained.1
  · exact to_numeric_bool_retained.2.2.1 [c10Feature] "D" "V" c10Feature
      ⟨2023, 5, 17, 0, 0, 0⟩ true (List.mem_singleton_self _) (by decide)
      (by decide)

end Geomet
